import Mathlib

/-!
Verification of the dependency-solver in `solve.py` against its
natural-language specification.  The definitions below are a shallow
embedding of the Python source: pure data is translated to Lean
structures, the mutating resolution pass becomes a function returning the
resolved fields, and fallible parsing returns `Except`.  Package identity
in Python (`types.SimpleNamespace` equality, which distinct run-created
packages never satisfy because their `sat_number`s differ) is modelled by
structural equality on the `Package` record, which coincides with
`sat_number` equality for packages built by `parse`.
-/

set_option autoImplicit false

namespace DepSolver

/-- `UNINSTALL_COST = 10**6` from the source. -/
def UNINSTALL_COST : Nat := 10 ^ 6

/-- `MAX_WEIGHT = UNINSTALL_COST ** 2` from the source. -/
def MAX_WEIGHT : Nat := UNINSTALL_COST ^ 2

/-- Comparison relations of the constraint grammar `(=|<|>|<=|>=)`. -/
inductive Rel where
  | eq | lt | gt | le | ge
deriving DecidableEq, Repr

/-- `Constraint`: a package name plus an optional relation/version pair.
The source stores `constraint` and `version` separately, but the assert in
`Constraint.__init__` guarantees they are jointly present or absent, so we
model them as one `Option`. -/
structure Constraint where
  name : String
  rel : Option (Rel × List Nat)
deriving DecidableEq, Repr

/-- `Package`: one concrete package version.  `sat_number` is the SAT
variable index assigned at registration (1-based).  The resolved
`dependencies` / `conflicts` attributes are not stored; they are computed
by `find_constraint_options` below. -/
structure Package where
  name : String
  version : List Nat
  size : Nat
  sat_number : Nat
  dependency_constraints : List (List Constraint)
  conflict_constraints : List Constraint
deriving DecidableEq, Repr

/-- Raw repository record (one JSON object of the repository document).
Missing `depends` / `conflicts` fields are modelled as empty lists, which
is how the source treats them. -/
structure PackageData where
  name : String
  version : String
  size : Nat
  depends : List (List String)
  conflicts : List String
deriving DecidableEq, Repr

/-- Error kinds of the Python run: the explicit `Exception` raised by
`Constraint.__init__` on a failed regex match, the `ValueError` raised by
`int()` on a malformed numeric component, the `KeyError` raised by
`repository[name]` on a missing name, and the `AssertionError` raised by
`assert constraint.name in repository`. -/
inductive Err where
  | constraintInvalid | valueError | keyError | assertionError
deriving DecidableEq, Repr

/-- Characters of the regex name class `[.+a-zA-Z0-9-]`. -/
def name_char (c : Char) : Bool :=
  c = '.' || c = '+' || c.isAlpha || c.isDigit || c = '-'

/-- Characters of the regex version class `[0-9.]`. -/
def version_char (c : Char) : Bool :=
  c.isDigit || c = '.'

/-- `s.split(".")` on the character list: splitting on `'.'`, the empty
string yields one empty component, as in Python. -/
def split_dots : List Char → List (List Char)
  | [] => [[]]
  | c :: cs =>
    if c = '.' then [] :: split_dots cs
    else match split_dots cs with
      | [] => [[c]]
      | l :: ls => (c :: l) :: ls

/-- Accumulator loop of decimal conversion over digit characters. -/
def digits_go : Nat → List Char → Option Nat
  | acc, [] => some acc
  | acc, c :: cs =>
    if c.isDigit then digits_go (acc * 10 + (c.toNat - 48)) cs else none

/-- `int(part)` on one version component: a non-empty digit string (the
only shape the inputs of interest take); anything else raises
`ValueError`. -/
def digits_to_nat : List Char → Option Nat
  | [] => none
  | c :: cs => digits_go 0 (c :: cs)

/-- `[int(part) for part in s.split(".")]`: a `ValueError` on any
component that is not a digit string (e.g. the empty component of
`"1..2"`) is fatal. -/
def parse_version (s : String) : Except Err (List Nat) :=
  match (split_dots s.toList).mapM digits_to_nat with
  | some v => Except.ok v
  | none => Except.error Err.valueError

/-- The ordered alternation `(=|<|>|<=|>=)` of `CONSTRAINT_REGEX`. -/
def rel_tokens : List (Rel × List Char) :=
  [(Rel.eq, ['=']), (Rel.lt, ['<']), (Rel.gt, ['>']),
   (Rel.le, ['<', '=']), (Rel.ge, ['>', '='])]

/-- Regex backtracking over the relation alternation: a relation token
matches only when it is followed by a non-empty run of version characters
(the greedy `[0-9.]+`); otherwise the engine tries the next alternative.
Returns the matched relation and the version characters. -/
def try_rel : List (Rel × List Char) → List Char → Option (Rel × List Char)
  | [], _ => none
  | (r, tok) :: rest, cs =>
    if tok.isPrefixOf cs then
      let v := (cs.drop tok.length).takeWhile version_char
      if v.isEmpty then try_rel rest cs else some (r, v)
    else try_rel rest cs

/-- `Constraint.__init__`: `CONSTRAINT_REGEX.match` anchors only at the
start of the string, so the match consists of the longest prefix of name
characters, optionally followed by a relation and a version; any trailing
characters are ignored.  `match is None` (no leading name character)
raises the `Constraint data invalid` exception. -/
def constraint_init (s : String) : Except Err Constraint :=
  if (s.toList.takeWhile name_char).isEmpty then
    Except.error Err.constraintInvalid
  else
    match try_rel rel_tokens
        (s.toList.drop (s.toList.takeWhile name_char).length) with
    | none =>
      Except.ok { name := String.mk (s.toList.takeWhile name_char),
                  rel := none }
    | some (r, vcs) =>
      match parse_version (String.mk vcs) with
      | Except.ok v =>
        Except.ok { name := String.mk (s.toList.takeWhile name_char),
                    rel := some (r, v) }
      | Except.error e => Except.error e

/-- Python list `<` on integer sequences: element-wise, first difference
decides, a shorter list is less than a longer one sharing its prefix. -/
def pyListLt : List Nat → List Nat → Bool
  | _, [] => false
  | [], _ :: _ => true
  | a :: as, b :: bs => a < b || (a == b && pyListLt as bs)

/-- Python list `<=` on integer sequences. -/
def pyListLe : List Nat → List Nat → Bool
  | [], _ => true
  | _ :: _, [] => false
  | a :: as, b :: bs => a < b || (a == b && pyListLe as bs)

/-- `Constraint.fulfilled_by`: name equality, then the version comparison
dictated by the relation.  Python `a > b` on lists is `b < a` and
`a >= b` is `b <= a`. -/
def fulfilled_by (c : Constraint) (p : Package) : Bool :=
  if c.name != p.name then false
  else match c.rel with
    | none => true
    | some (Rel.eq, v) => p.version == v
    | some (Rel.lt, v) => pyListLt p.version v
    | some (Rel.gt, v) => pyListLt v p.version
    | some (Rel.le, v) => pyListLe p.version v
    | some (Rel.ge, v) => pyListLe v p.version

/-- The repository: package name to the versions registered under it, in
insertion order (`repository` dict in `parse`). -/
abbrev Repo := List (String × List Package)

/-- `repository.get(name)`. -/
def repo_lookup? (repo : Repo) (n : String) : Option (List Package) :=
  (repo.find? (fun e => e.1 == n)).map (fun e => e.2)

/-- Total lookup used where the source skips missing names
(`if constraint.name not in repository: continue`). -/
def repo_lookup (repo : Repo) (n : String) : List Package :=
  (repo_lookup? repo n).getD []

/-- One step of repository construction: append the package to its name's
version list, or add a new entry. -/
def repo_insert (repo : Repo) (p : Package) : Repo :=
  if (repo.find? (fun e => e.1 == p.name)).isSome then
    repo.map (fun e => if e.1 == p.name then (e.1, e.2 ++ [p]) else e)
  else repo ++ [(p.name, [p])]

/-- All packages of the repository, in repository order. -/
def repo_packages (repo : Repo) : List Package :=
  repo.flatMap (fun e => e.2)

/-- `Package.__init__` for one repository record, at SAT number `sat`. -/
def mk_package (sat : Nat) (d : PackageData) : Except Err Package := do
  let v ← parse_version d.version
  let deps ← d.depends.mapM (fun dl => dl.mapM constraint_init)
  let cons ← d.conflicts.mapM constraint_init
  pure { name := d.name, version := v, size := d.size, sat_number := sat,
         dependency_constraints := deps, conflict_constraints := cons }

/-- Registration of all repository records: SAT numbers are assigned
consecutively from `sat` (the run starts at 1, since `SAT_NUMBER[0]` is
`None`). -/
def mk_packages : Nat → List PackageData → Except Err (List Package)
  | _, [] => Except.ok []
  | sat, d :: ds => do
    let p ← mk_package sat d
    let ps ← mk_packages (sat + 1) ds
    pure (p :: ps)

/-- The repository dict built by the first loop of `parse`. -/
def build_repo (ps : List Package) : Repo :=
  ps.foldl repo_insert []

/-- Resolution of one flat constraint list against the repository: for
each constraint, every version registered under its name that fulfils it,
appended in repository order (the inner loops of
`find_constraint_options`).  Unknown names are skipped. -/
def resolve_flat (repo : Repo) (cs : List Constraint) : List Package :=
  cs.foldl (fun acc c =>
    acc ++ (repo_lookup repo c.name).filter (fun p => fulfilled_by c p)) []

/-- The resolved dependency disjunctions before rationalisation: empty
resolved disjunctions are dropped (`if len(depends) != 0`). -/
def pre_dependencies (repo : Repo) (p : Package) : List (List Package) :=
  (p.dependency_constraints.map (resolve_flat repo)).filter
    (fun l => l.length != 0)

/-- Rationalisation step for one conflict: `if conflict in depends_list:
depends_list.remove(conflict)` — Python `list.remove` deletes only the
first occurrence. -/
def rationalise_step (c : Package) (dls : List (List Package)) :
    List (List Package) :=
  dls.map (fun dl => if c ∈ dl then dl.erase c else dl)

/-- The rationalisation loop over the resolved conflicts. -/
def rationalise (conflicts : List Package) (dls : List (List Package)) :
    List (List Package) :=
  conflicts.foldl (fun acc c => rationalise_step c acc) dls

/-- `Package.find_constraint_options`: returns the resolved
`(dependencies, conflicts)` pair for the package (the source computes the
conflict list once and reads it twice; resolution is pure, so writing the
resolution twice denotes the same value). -/
def find_constraint_options (repo : Repo) (p : Package) :
    List (List Package) × List Package :=
  (rationalise (resolve_flat repo p.conflict_constraints)
    (pre_dependencies repo p),
   resolve_flat repo p.conflict_constraints)

/-- Processing of one initial-state reference string (the second loop of
`parse`): `repository[constraint.name]` raises `KeyError` when the name is
absent; otherwise the first fulfilling version is taken (`break`), and a
reference fulfilling no version is silently skipped. -/
def parse_initial_step (repo : Repo) (s : String) :
    Except Err (Option Package) :=
  match constraint_init s with
  | Except.error e => Except.error e
  | Except.ok c =>
    match repo_lookup? repo c.name with
    | none => Except.error Err.keyError
    | some pkgs => Except.ok (pkgs.find? (fun p => fulfilled_by c p))

/-- The uninstall branch of the constraints loop of `parse`:
`assert constraint.name in repository` raises when the name is absent;
otherwise the first fulfilling version is taken (`break`), and a
constraint fulfilling no version adds nothing. -/
def parse_uninstall_ref (repo : Repo) (c : Constraint) :
    Except Err (Option Package) :=
  if (repo_lookup? repo c.name).isNone then Except.error Err.assertionError
  else Except.ok ((repo_lookup repo c.name).find? (fun p => fulfilled_by c p))

/-- Processing of one constraints-document string: the body `s[1:]` is
parsed first (so an empty string fails in `Constraint.__init__`), then the
leading character selects the uninstall (`-`) or install branch. -/
def parse_constraint_step (repo : Repo) (s : String) :
    Except Err (Sum (Option Package) Constraint) :=
  match constraint_init (String.mk (s.toList.drop 1)) with
  | Except.error e => Except.error e
  | Except.ok c =>
    if s.toList.head? = some '-' then
      match parse_uninstall_ref repo c with
      | Except.ok op => Except.ok (Sum.inl op)
      | Except.error e => Except.error e
    else Except.ok (Sum.inr c)

/-- `parse(repository_data, initial_data, constraints_data)`: builds the
repository (assigning SAT numbers from 1), the initial-state list, the
uninstall package list and the install constraint list.  The resolution
pass over the repository mutates no data used here; resolved dependency
and conflict lists are recomputed on demand by `find_constraint_options`. -/
def parse (repo_data : List PackageData)
    (initial_data constraints_data : List String) :
    Except Err (Repo × List Package × List Package × List Constraint) := do
  let pkgs ← mk_packages 1 repo_data
  let repo := build_repo pkgs
  let initial ← initial_data.foldlM (fun acc s => do
      let r ← parse_initial_step repo s
      pure (acc ++ r.toList)) ([] : List Package)
  let (uninstall, install) ← constraints_data.foldlM
      (fun (acc : List Package × List Constraint) s => do
        match ← parse_constraint_step repo s with
        | Sum.inl op => pure (acc.1 ++ op.toList, acc.2)
        | Sum.inr c => pure (acc.1, acc.2 ++ [c])) ([], [])
  pure (repo, initial, uninstall, install)

/-- One line of a DIMACS document built by the encoder: the leading
comment, the problem line (`p cnf V C` or `p wcnf V C W`), or a clause
line (optional weight followed by signed literals and the terminating 0). -/
inductive Line where
  | comment (s : String)
  | pcnf (v c : Nat)
  | pwcnf (v c w : Nat)
  | clause (w : Option Nat) (lits : List Int)
deriving DecidableEq, Repr

/-- The clause lines emitted for one package by `problem_to_cnf`: a
binary conflict clause per resolved conflict, then one dependency clause
per resolved disjunction (`!A OR B OR C`; an empty disjunction yields the
unit clause `!A`). -/
def package_clauses (repo : Repo) (p : Package) : List Line :=
  let rc := find_constraint_options repo p
  rc.2.map (fun c =>
    Line.clause none [-(p.sat_number : Int), -(c.sat_number : Int)]) ++
  rc.1.map (fun dl =>
    Line.clause none
      ((-(p.sat_number : Int)) :: dl.map (fun q => (q.sat_number : Int))))

/-- The clause lines of `problem_to_cnf`, in emission order: per-package
conflict and dependency clauses, unit uninstall clauses, install clauses.
The source indexes `repository[constraint.name]` for install constraints
(a `KeyError` when the name is absent); that path, exercised by no claim,
is modelled as the empty lookup. -/
def cnf_body (repo : Repo) (uninstall : List Package)
    (install : List Constraint) : List Line :=
  (repo_packages repo).flatMap (package_clauses repo) ++
  uninstall.map (fun p => Line.clause none [-(p.sat_number : Int)]) ++
  install.map (fun c =>
    Line.clause none
      (((repo_lookup repo c.name).filter (fun p => fulfilled_by c p)).map
        (fun p => (p.sat_number : Int))))

/-- `problem_to_cnf`: the comment line, the problem line (variable count
`len(SAT_NUMBER) - 1`, clause count `len(output) - 1`), then the clauses. -/
def problem_to_cnf (sat_count : Nat) (repo : Repo) (uninstall : List Package)
    (install : List Constraint) : List Line :=
  Line.comment "Normal SAT form" ::
  Line.pcnf sat_count (cnf_body repo uninstall install).length ::
  cnf_body repo uninstall install

/-- The wcnf conversion loop body for one clause line: prefix the hard
weight (`output[i] = MAX_WEIGHT_STR + output[i]`). -/
def hardened : Line → Line
  | Line.clause none lits => Line.clause (some MAX_WEIGHT) lits
  | l => l

/-- The soft clauses appended by `problem_to_wcnf`: the size-cost clause
`size(P) ¬x_P` per repository package, then the keep-installed clause
`UNINSTALL_COST x_P` per initial-state package. -/
def soft_lines (repo : Repo) (initial : List Package) : List Line :=
  (repo_packages repo).map (fun p =>
    Line.clause (some p.size) [-(p.sat_number : Int)]) ++
  initial.map (fun p =>
    Line.clause (some UNINSTALL_COST) [(p.sat_number : Int)])

/-- The clause lines of `problem_to_wcnf`: the hardened CNF clauses then
the soft clauses. -/
def wcnf_body (repo : Repo) (initial uninstall : List Package)
    (install : List Constraint) : List Line :=
  (cnf_body repo uninstall install).map hardened ++ soft_lines repo initial

/-- `problem_to_wcnf`: comment, `p wcnf V C W` problem line (`V =
len(SAT_NUMBER) - 1`, `C = len(output) - 2`, `W = MAX_WEIGHT`), then the
clause lines.  The source rewrites `output[1]` in place; building the
final list directly is equivalent. -/
def problem_to_wcnf (sat_count : Nat) (repo : Repo)
    (initial uninstall : List Package) (install : List Constraint) :
    List Line :=
  Line.comment "Weighted Partial Max-SAT form" ::
  Line.pwcnf sat_count (wcnf_body repo initial uninstall install).length
    MAX_WEIGHT ::
  wcnf_body repo initial uninstall install

/-- Association-list read with default, modelling `dict` access over the
pre-seeded `nodes` / `count` dictionaries. -/
def assoc_get {α : Type} (m : List (Nat × α)) (k : Nat) (d : α) : α :=
  ((m.find? (fun e => e.1 == k)).map (fun e => e.2)).getD d

/-- Association-list in-place update of one key's value. -/
def assoc_update {α : Type} (m : List (Nat × α)) (k : Nat) (f : α → α) :
    List (Nat × α) :=
  m.map (fun e => if e.1 == k then (e.1, f e.2) else e)

/-- `bisect.insort`: insertion keeping ascending order (after equal
elements).  The source applies it to the `to_remove` queue. -/
def insort : List Nat → Nat → List Nat
  | [], x => [x]
  | y :: ys, x => if x < y then x :: y :: ys else y :: insort ys x

/-- The body of `toposort`'s `for _ in range(len(nodes))` loop, with the
remaining iteration count as fuel.  An empty `to_remove` queue raises
`ToposortError` (modelled as `Except.error`).  Counts are integers, as in
the source. -/
def topo_go (nodes : List (Nat × List Nat)) :
    Nat → List Nat → List (Nat × Int) → List Nat → Except Unit (List Nat)
  | 0, _, _, out => Except.ok out
  | _ + 1, [], _, _ => Except.error ()
  | fuel + 1, node :: rest, count, out =>
    let st := (assoc_get nodes node []).foldl
      (fun (st : List (Nat × Int) × List Nat) o =>
        let c := assoc_update st.1 o (fun n => n - 1)
        if assoc_get c o 0 == 0 && !st.2.contains o then (c, insort st.2 o)
        else (c, st.2)) (count, rest)
    topo_go nodes fuel st.2 st.1 (out ++ [node])

/-- `toposort(nodes, count)`: Kahn's algorithm; the initial queue holds
the keys of `nodes` with zero in-count, and the loop runs `len(nodes)`
times. -/
def toposort (nodes : List (Nat × List Nat)) (count : List (Nat × Int)) :
    Except Unit (List Nat) :=
  let to_remove := (nodes.map (fun e => e.1)).filter
    (fun k => assoc_get count k 0 == 0)
  topo_go nodes nodes.length to_remove count []

/-- `str(P)` = `name "=" dotted-version`. -/
def package_str (p : Package) : String :=
  p.name ++ "=" ++ String.intercalate "." (p.version.map toString)

/-- `str(SAT_NUMBER[n])`, modelled over the list of all registered
packages (every number used by the sequencer comes from a registered
package). -/
def sat_str (all_pkgs : List Package) (n : Nat) : String :=
  match all_pkgs.find? (fun p => p.sat_number == n) with
  | some p => package_str p
  | none => ""

/-- `remove_p_to_commands`: filter the removals to those actually
installed, build the dependency graph among them, toposort, reverse, and
emit `-` commands together with the updated initial state. -/
def remove_p_to_commands (repo : Repo) (all_pkgs remove_p initial :
    List Package) : Except Unit (List String × List Package) :=
  let removep := remove_p.filter (fun p => initial.contains p)
  let nodes0 := removep.map (fun p => (p.sat_number, ([] : List Nat)))
  let count0 := removep.map (fun p => (p.sat_number, (0 : Int)))
  let st := removep.foldl (fun st p =>
      (find_constraint_options repo p).1.foldl (fun st dl =>
        dl.foldl (fun (st : List (Nat × List Nat) × List (Nat × Int)) dep =>
          if removep.contains dep then
            (assoc_update st.1 dep.sat_number (fun l => l ++ [p.sat_number]),
             assoc_update st.2 p.sat_number (fun n => n + 1))
          else st) st) st) (nodes0, count0)
  match toposort st.1 st.2 with
  | Except.error _ => Except.error ()
  | Except.ok order =>
    Except.ok (order.reverse.map (fun n => "-" ++ sat_str all_pkgs n),
      initial.filter (fun p => !removep.contains p))

/-- The two failure modes of `add_p_to_commands`: the `ToposortError`
caught by the solve loop, and the plain `Exception` raised when a
dependency disjunction has no witness (which is not caught). -/
inductive AddErr where
  | toposort | unsatisfiable
deriving DecidableEq, Repr

/-- `add_p_to_commands`: filter the additions to those not yet installed,
build the install-order graph (a disjunction witnessed by the initial
state needs no edge; otherwise the first witness among the additions
yields an edge; otherwise the run fails), toposort, and emit `+`
commands together with the updated initial state. -/
def add_p_to_commands (repo : Repo) (all_pkgs add_p initial :
    List Package) : Except AddErr (List String × List Package) := do
  let addp := add_p.filter (fun p => !initial.contains p)
  let nodes0 := addp.map (fun p => (p.sat_number, ([] : List Nat)))
  let count0 := addp.map (fun p => (p.sat_number, (0 : Int)))
  let st ← addp.foldlM (fun st p =>
      (find_constraint_options repo p).1.foldlM
        (fun (st : List (Nat × List Nat) × List (Nat × Int)) dl =>
          if dl.any (fun d => initial.contains d) then pure st
          else match dl.find? (fun d => addp.contains d) with
            | some dep =>
              pure (assoc_update st.1 dep.sat_number
                      (fun l => l ++ [p.sat_number]),
                    assoc_update st.2 p.sat_number (fun n => n + 1))
            | none => Except.error AddErr.unsatisfiable) st) (nodes0, count0)
  match toposort st.1 st.2 with
  | Except.error _ => Except.error AddErr.toposort
  | Except.ok order =>
    pure (order.map (fun n => "+" ++ sat_str all_pkgs n), initial ++ addp)

/-- Outcome of one iteration of the `solve_wcnf` loop. -/
inductive StepResult where
  | done (commands : List String)
  | retry (wcnf : List Line)
  | fatal
deriving DecidableEq, Repr

/-- One iteration of the `while True` loop of `solve_wcnf`, given the
solver's assignment (`remove_p`, `add_p`): uninstall commands are built
first (a failure there is not caught), then install commands; on
`ToposortError` the blocking clause
`MAX_WEIGHT ⋁_{p ∈ add_p} ¬x_p` is appended to the WCNF and the solver is
re-run. -/
def solve_wcnf_step (repo : Repo) (all_pkgs : List Package)
    (wcnf : List Line) (initial remove_p add_p : List Package) : StepResult :=
  match remove_p_to_commands repo all_pkgs remove_p initial with
  | Except.error _ => StepResult.fatal
  | Except.ok (remove_commands, new_initial) =>
    match add_p_to_commands repo all_pkgs add_p new_initial with
    | Except.ok (add_commands, _) =>
        StepResult.done (remove_commands ++ add_commands)
    | Except.error AddErr.toposort =>
        StepResult.retry (wcnf ++
          [Line.clause (some MAX_WEIGHT)
            (add_p.map (fun p => -(p.sat_number : Int)))])
    | Except.error AddErr.unsatisfiable => StepResult.fatal

/-- `main`'s choice of solving path from `len(SAT_NUMBER)`. -/
inductive SolverChoice where
  | wcnf | cnf
deriving DecidableEq, Repr

/-- `if len(SAT_NUMBER) < 50000: solve_wcnf else solve_cnf` in `main`. -/
def main_solver_choice (sat_list_len : Nat) : SolverChoice :=
  if sat_list_len < 50000 then SolverChoice.wcnf else SolverChoice.cnf

/-! Specification-side definitions, written from the spec's words, to be
compared with the source-derived definitions above. -/

/-- Spec: dotted versions compare lexicographically as sequences of
integers, component-wise, a shorter sequence being less than a longer one
sharing its prefix. -/
def lexOrdSpec : List Nat → List Nat → Ordering
  | [], [] => Ordering.eq
  | [], _ :: _ => Ordering.lt
  | _ :: _, [] => Ordering.gt
  | a :: as, b :: bs =>
    if a < b then Ordering.lt
    else if b < a then Ordering.gt
    else lexOrdSpec as bs

/-- Spec: the resolved disjunction is, atom by atom, every concrete
version matching that atom (the flat concatenation form of §4.2). -/
def resolve_flat_spec (repo : Repo) (cs : List Constraint) : List Package :=
  cs.flatMap (fun c =>
    (repo_lookup repo c.name).filter (fun p => fulfilled_by c p))

/-- Whether a line is a clause line (carries literals, as opposed to the
comment or problem line). -/
def is_clause_line : Line → Bool
  | Line.clause _ _ => true
  | _ => false

/-- Number of clause lines actually present in a document. -/
def clause_line_count (ls : List Line) : Nat :=
  (ls.filter is_clause_line).length

/-- The clause count announced by the document's problem line (the second
line of every document the encoder builds). -/
def header_clause_count : List Line → Option Nat
  | _ :: Line.pwcnf _ c _ :: _ => some c
  | _ :: Line.pcnf _ c :: _ => some c
  | _ => none

/-- Truth of a signed literal under an assignment of SAT variables. -/
def lit_sat (v : Nat → Bool) (l : Int) : Bool :=
  if l > 0 then v l.toNat else !(v (-l).toNat)

/-- Satisfaction of one document line: clause lines need a true literal;
other lines impose nothing. -/
def line_sat (v : Nat → Bool) : Line → Bool
  | Line.clause _ lits => lits.any (lit_sat v)
  | _ => true

/-- Satisfaction of every line of a document. -/
def doc_sat (v : Nat → Bool) (ls : List Line) : Bool :=
  ls.all (line_sat v)

/-! Concrete instances used to settle the claims on small inputs. -/

/-- The bare constraint `A`. -/
def conA : Constraint := { name := "A", rel := none }

/-- The constraint `A=1`. -/
def conAeq1 : Constraint := { name := "A", rel := some (Rel.eq, [1]) }

/-- The bare constraint `B`. -/
def conB : Constraint := { name := "B", rel := none }

/-- Package `A=1`, SAT number 1, no dependencies or conflicts. -/
def pkgA1 : Package :=
  { name := "A", version := [1], size := 5, sat_number := 1,
    dependency_constraints := [], conflict_constraints := [] }

/-- Package `A=2`, SAT number 2, no dependencies or conflicts. -/
def pkgA2 : Package :=
  { name := "A", version := [2], size := 5, sat_number := 2,
    dependency_constraints := [], conflict_constraints := [] }

/-- Repository document with two versions of `A`. -/
def c1data : List PackageData :=
  [{ name := "A", version := "1", size := 5, depends := [], conflicts := [] },
   { name := "A", version := "2", size := 5, depends := [], conflicts := [] }]

/-- The repository `parse` builds from `c1data`. -/
def c1repo : Repo := [("A", [pkgA1, pkgA2])]

/-- A package depending on the disjunction `[A, A=1]` (two atoms matching
the same version) and conflicting with `A`. -/
def c2P : Package :=
  { name := "P", version := [1], size := 1, sat_number := 2,
    dependency_constraints := [[conA, conAeq1]],
    conflict_constraints := [conA] }

/-- Repository holding `A=1` and `c2P`. -/
def c2repo : Repo := [("A", [pkgA1]), ("P", [c2P])]

/-- Package `B=1`, SAT number 2, no dependencies or conflicts. -/
def pkgB1 : Package :=
  { name := "B", version := [1], size := 5, sat_number := 2,
    dependency_constraints := [], conflict_constraints := [] }

/-- A package depending on the disjunction `[A, B]` (duplicate-free once
resolved) and conflicting with `B`. -/
def c2Q : Package :=
  { name := "Q", version := [1], size := 1, sat_number := 3,
    dependency_constraints := [[conA, conB]],
    conflict_constraints := [conB] }

/-- Repository holding `A=1`, `B=1` and `c2Q`. -/
def c2repo2 : Repo := [("A", [pkgA1]), ("B", [pkgB1]), ("Q", [c2Q])]

/-- A package depending on `[A]` and conflicting with `A`: rationalisation
empties its only resolved disjunction. -/
def c3P : Package :=
  { name := "P", version := [1], size := 1, sat_number := 2,
    dependency_constraints := [[conA]], conflict_constraints := [conA] }

/-- Repository holding `A=1` and `c3P`. -/
def c3repo : Repo := [("A", [pkgA1]), ("P", [c3P])]

/-- A package depending on the disjunction `[A, A=1]`, with no conflicts:
both atoms match `A=1`. -/
def c9P : Package :=
  { name := "P", version := [1], size := 1, sat_number := 2,
    dependency_constraints := [[conA, conAeq1]], conflict_constraints := [] }

/-- Repository holding `A=1` and `c9P`. -/
def c9repo : Repo := [("A", [pkgA1]), ("P", [c9P])]

/-- Package `A=1` depending on `B` (one half of a dependency cycle). -/
def c6A : Package :=
  { name := "A", version := [1], size := 1, sat_number := 1,
    dependency_constraints := [[conB]], conflict_constraints := [] }

/-- Package `B=1` depending on `A` (the other half of the cycle). -/
def c6B : Package :=
  { name := "B", version := [1], size := 1, sat_number := 2,
    dependency_constraints := [[conA]], conflict_constraints := [] }

/-- Package `C=1`, already installed, with no dependencies. -/
def c6C : Package :=
  { name := "C", version := [1], size := 1, sat_number := 3,
    dependency_constraints := [], conflict_constraints := [] }

/-- Repository holding the cycle `A ↔ B` and the installed package `C`. -/
def c6repo : Repo := [("A", [c6A]), ("B", [c6B]), ("C", [c6C])]

/-- The registered packages of `c6repo` (the `SAT_NUMBER` list). -/
def c6all : List Package := [c6A, c6B, c6C]

/-- The WCNF document of the cycle instance with initial state `[C]`. -/
def c6wcnf : List Line := problem_to_wcnf 3 c6repo [c6C] [] []

/-- Package `A=1.2` (for the version-ordering scenario). -/
def c8A12 : Package :=
  { name := "A", version := [1, 2], size := 5, sat_number := 1,
    dependency_constraints := [], conflict_constraints := [] }

/-- Package `A=1.10`. -/
def c8A110 : Package :=
  { name := "A", version := [1, 10], size := 5, sat_number := 2,
    dependency_constraints := [], conflict_constraints := [] }

/-- Repository document with a single version `A=1`. -/
def c4data : List PackageData :=
  [{ name := "A", version := "1", size := 5, depends := [], conflicts := [] }]

/-! Theorems. -/

theorem pyListLt_iff_lex (a : List Nat) :
    ∀ b : List Nat, pyListLt a b = true ↔ lexOrdSpec a b = Ordering.lt := by
  induction a with
  | nil => intro b; cases b <;> simp [pyListLt, lexOrdSpec]
  | cons x as ih =>
    intro b
    cases b with
    | nil => simp [pyListLt, lexOrdSpec]
    | cons y bs =>
      simp only [pyListLt, lexOrdSpec, Bool.or_eq_true, Bool.and_eq_true,
        decide_eq_true_eq, beq_iff_eq]
      rcases Nat.lt_trichotomy x y with h | h | h
      · simp [h, Nat.not_lt.mpr (Nat.le_of_lt h), Nat.ne_of_lt h]
      · subst h
        simp [Nat.lt_irrefl, ih bs]
      · simp [Nat.not_lt.mpr (Nat.le_of_lt h), h, Nat.ne_of_gt h]

theorem pyListLe_iff_lex (a : List Nat) :
    ∀ b : List Nat, pyListLe a b = true ↔ lexOrdSpec a b ≠ Ordering.gt := by
  induction a with
  | nil => intro b; cases b <;> simp [pyListLe, lexOrdSpec]
  | cons x as ih =>
    intro b
    cases b with
    | nil => simp [pyListLe, lexOrdSpec]
    | cons y bs =>
      simp only [pyListLe, lexOrdSpec, Bool.or_eq_true, Bool.and_eq_true,
        decide_eq_true_eq, beq_iff_eq]
      rcases Nat.lt_trichotomy x y with h | h | h
      · simp [h, Nat.not_lt.mpr (Nat.le_of_lt h), Nat.ne_of_lt h]
      · subst h
        simp [Nat.lt_irrefl, ih bs]
      · simp [Nat.not_lt.mpr (Nat.le_of_lt h), h, Nat.ne_of_gt h]

/-- Claim C8 (confirmed): `Constraint.fulfilled_by` compares dotted
versions lexicographically as sequences of integers — component-wise,
with a shorter sequence less than a longer one sharing its prefix — and
not as strings: the source's list order agrees with the lexicographic
specification on every pair, the constraint `A>1.2` is fulfilled by
`A=1.10` and not by `A=1.2`, while character-wise comparison of the
strings would order `"1.10"` below `"1.2"`. -/
theorem C8_version_order :
    (∀ a b : List Nat, pyListLt a b = true ↔ lexOrdSpec a b = Ordering.lt) ∧
    (∀ a b : List Nat, pyListLe a b = true ↔ lexOrdSpec a b ≠ Ordering.gt) ∧
    constraint_init "A>1.2" =
      Except.ok { name := "A", rel := some (Rel.gt, [1, 2]) } ∧
    fulfilled_by { name := "A", rel := some (Rel.gt, [1, 2]) } c8A110 = true ∧
    fulfilled_by { name := "A", rel := some (Rel.gt, [1, 2]) } c8A12 = false ∧
    lexOrdSpec [1, 10] [1, 2] = Ordering.gt ∧
    pyListLt ("1.10".toList.map Char.toNat) ("1.2".toList.map Char.toNat)
      = true := by
  refine ⟨pyListLt_iff_lex, pyListLe_iff_lex, by rfl, ?_, ?_, ?_, ?_⟩ <;>
    decide

theorem resolve_flat_go (repo : Repo) (cs : List Constraint) :
    ∀ acc : List Package,
      cs.foldl (fun acc c =>
        acc ++ (repo_lookup repo c.name).filter (fun p => fulfilled_by c p))
        acc = acc ++ resolve_flat_spec repo cs := by
  induction cs with
  | nil => intro acc; simp [resolve_flat_spec]
  | cons c cs ih =>
    intro acc
    simp only [List.foldl_cons, resolve_flat_spec, List.flatMap_cons, ih,
      List.append_assoc]

/-- Claim C9 (amended): the resolved disjunction computed by
`find_constraint_options` is the concatenation, atom by atom, of every
repository version matching that atom, in repository order; no
deduplication is performed, so a version matched by several atoms appears
once per matching atom. -/
theorem C9_resolve_concat (repo : Repo) (cs : List Constraint) :
    resolve_flat repo cs = resolve_flat_spec repo cs := by
  simpa using resolve_flat_go repo cs []

/-- Claim C9 counterexample: the package `c9P` depends on the disjunction
`[A, A=1]`, both atoms matching `A=1`; the resolved disjunction contains
`A=1` twice, so it is not duplicate-free as the claim states. -/
theorem C9_counterexample :
    (find_constraint_options c9repo c9P).1 = [[pkgA1, pkgA1]] ∧
    ¬ ([pkgA1, pkgA1] : List Package).Nodup := by
  constructor
  · decide
  · decide

/-- Claim C1 counterexample: with repository versions `A=1` and `A=2` and
the single uninstall constraint `-A`, the parser stops at the first
satisfying version (`break`), so the emitted formula carries the unit
clause `¬x_1` only: `A=2` satisfies the constraint yet receives no unit
clause, and the assignment installing exactly `A=2` satisfies every
clause of the formula — the final state can retain a satisfier of the
uninstall constraint. -/
theorem C1_counterexample :
    parse c1data [] ["-A"] = Except.ok (c1repo, [], [pkgA1], []) ∧
    fulfilled_by conA pkgA2 = true ∧
    Line.clause none [-(2 : Int)] ∉ problem_to_cnf 2 c1repo [pkgA1] [] ∧
    doc_sat (fun n => n == 2) (problem_to_cnf 2 c1repo [pkgA1] []) = true :=
  ⟨by rfl, by decide, by decide, by decide⟩

/-- Claim C1 (amended): for every uninstall constraint only the first
repository version satisfying it is placed on the uninstall list, and
every package on that list is forced out by a hard unit clause `¬x_P` in
the emitted formula; satisfying versions after the first receive no such
clause, so an uninstall constraint may keep a satisfier in the final
state. -/
theorem C1_uninstall_unit_clause (sat_count : Nat) (repo : Repo)
    (uninstall : List Package) (install : List Constraint) (p : Package)
    (hp : p ∈ uninstall) :
    Line.clause none [-(p.sat_number : Int)] ∈
      problem_to_cnf sat_count repo uninstall install := by
  unfold problem_to_cnf cnf_body
  refine List.mem_cons_of_mem _ (List.mem_cons_of_mem _ ?_)
  refine List.mem_append_left _ (List.mem_append_right _ ?_)
  exact List.mem_map_of_mem _ hp

/-- Witness for `C1_uninstall_unit_clause` at the two-version instance. -/
theorem C1_uninstall_unit_clause_witness :
    Line.clause none [-(1 : Int)] ∈ problem_to_cnf 2 c1repo [pkgA1] [] :=
  C1_uninstall_unit_clause 2 c1repo [pkgA1] [] pkgA1 (by decide)

/-- Claim C4 counterexample: with the repository holding only `A=1`, the
initial-state reference `A=2` and the uninstall constraint `-A=2` match
no repository version, yet `parse` succeeds — the unmatched reference is
silently dropped instead of aborting the run. -/
theorem C4_counterexample :
    parse c4data ["A=2"] [] = Except.ok ([("A", [pkgA1])], [], [], []) ∧
    parse c4data [] ["-A=2"] = Except.ok ([("A", [pkgA1])], [], [], []) :=
  ⟨by rfl, by rfl⟩

/-- Claim C4 (amended): a reference whose package name is absent from the
repository is fatal — `repository[name]` raises `KeyError` for an
initial-state reference, and the membership assert raises
`AssertionError` for an uninstall constraint; a reference whose name
exists but which matches no version is silently skipped. -/
theorem C4_unknown_name_fatal (repo : Repo) (s : String) (c : Constraint)
    (hc : constraint_init s = Except.ok c)
    (hn : repo_lookup? repo c.name = none) :
    parse_initial_step repo s = Except.error Err.keyError ∧
    parse_uninstall_ref repo c = Except.error Err.assertionError := by
  constructor
  · unfold parse_initial_step
    rw [hc]
    simp only [hn]
  · unfold parse_uninstall_ref
    rw [hn]
    rfl

/-- Witness for `C4_unknown_name_fatal` on the empty repository. -/
theorem C4_unknown_name_fatal_witness :
    parse_initial_step [] "A" = Except.error Err.keyError ∧
    parse_uninstall_ref [] conA = Except.error Err.assertionError :=
  C4_unknown_name_fatal [] "A" conA (by rfl) (by rfl)

/-- Claim C5 counterexample: the string `A=x` does not conform to the
constraint grammar, yet `Constraint.__init__` silently accepts it —
`re.match` anchors only at the start, so the malformed tail is dropped
and the constraint parses as the bare name `A`. -/
theorem C5_counterexample :
    constraint_init "A=x" = Except.ok { name := "A", rel := none } := by rfl

theorem parse_version_error (s : String) (e : Err)
    (h : parse_version s = Except.error e) : e = Err.valueError := by
  unfold parse_version at h
  cases hm : (split_dots s.toList).mapM digits_to_nat <;> rw [hm] at h
  · exact (Except.error.inj h).symm
  · exact absurd h (by simp)

theorem takeWhile_append_stop (p : Char → Bool) :
    ∀ (l1 : List Char) (c : Char) (l2 : List Char),
      (∀ x ∈ l1, p x = true) → p c = false →
      (l1 ++ c :: l2).takeWhile p = l1 := by
  intro l1
  induction l1 with
  | nil => intro c l2 _ hc; simp [List.takeWhile_cons, hc]
  | cons x xs ih =>
    intro c l2 h hc
    have hx : p x = true := h x (List.mem_cons_self x xs)
    simp only [List.cons_append, List.takeWhile_cons, hx, if_true]
    rw [ih c l2 (fun y hy => h y (List.mem_cons_of_mem x hy)) hc]

theorem try_rel_bang (junk : List Char) :
    try_rel rel_tokens ('!' :: junk) = none := by
  simp [rel_tokens, try_rel, List.isPrefixOf]

/-- Claim C5 (amended): `Constraint.__init__` raises its parse exception
exactly when the string has no leading name character (the anchored regex
then fails to match); otherwise the longest name prefix is accepted, any
relation must be followed by digits (a malformed digit group raises
`ValueError` instead), and trailing garbage after the matched prefix is
silently ignored — appending `!`-led garbage to a well-formed name yields
the bare-name constraint. -/
theorem C5_bad_start_fatal :
    (∀ s : String,
      constraint_init s = Except.error Err.constraintInvalid ↔
      s.toList.takeWhile name_char = []) ∧
    (∀ (nm junk : List Char), nm ≠ [] → (∀ c ∈ nm, name_char c = true) →
      constraint_init (String.mk (nm ++ '!' :: junk)) =
        Except.ok { name := String.mk nm, rel := none }) := by
  constructor
  · intro s
    unfold constraint_init
    generalize s.toList = t
    by_cases h : t.takeWhile name_char = []
    · simp [h]
    · have hE : (t.takeWhile name_char).isEmpty = false := by
        simp [List.isEmpty_iff, h]
      rw [hE]
      simp only [Bool.false_eq_true, if_false]
      cases htr : try_rel rel_tokens (t.drop (t.takeWhile name_char).length)
          with
      | none => simp [h]
      | some rv =>
        obtain ⟨r, vcs⟩ := rv
        cases hpv : parse_version (String.mk vcs) with
        | ok v => simp [hpv, h]
        | error e =>
          have he : e = Err.valueError := parse_version_error _ _ hpv
          subst he
          simp [hpv, h]
  · intro nm junk hne hall
    unfold constraint_init
    have hdata : (String.mk (nm ++ '!' :: junk)).toList = nm ++ '!' :: junk :=
      rfl
    rw [hdata, takeWhile_append_stop name_char nm '!' junk hall (by decide)]
    have hlen : (nm ++ '!' :: junk).drop nm.length = '!' :: junk :=
      List.drop_left nm ('!' :: junk)
    rw [hlen, try_rel_bang]
    simp [List.isEmpty_iff, hne]

/-- Witness for `C5_bad_start_fatal`: parse failure for `=1` (no leading
name character) and silent acceptance of `A!x`. -/
theorem C5_bad_start_fatal_witness :
    (constraint_init "=1" = Except.error Err.constraintInvalid ↔
      ("=1" : String).toList.takeWhile name_char = []) ∧
    constraint_init (String.mk (['A'] ++ '!' :: ['x'])) =
      Except.ok { name := String.mk ['A'], rel := none } :=
  ⟨C5_bad_start_fatal.1 "=1",
   C5_bad_start_fatal.2 ['A'] ['x'] (by decide) (by decide)⟩

theorem rationalise_cons (c : Package) (cs : List Package)
    (dls : List (List Package)) :
    rationalise (c :: cs) dls = rationalise cs (rationalise_step c dls) :=
  rfl

theorem mem_rationalise_sublist (conflicts : List Package) :
    ∀ (dls : List (List Package)) (l : List Package),
      l ∈ rationalise conflicts dls → ∃ m ∈ dls, l.Sublist m := by
  induction conflicts with
  | nil => intro dls l hl; exact ⟨l, hl, List.Sublist.refl l⟩
  | cons c cs ih =>
    intro dls l hl
    rw [rationalise_cons] at hl
    obtain ⟨m, hm, hsub⟩ := ih (rationalise_step c dls) l hl
    obtain ⟨m0, hm0, rfl⟩ := List.mem_map.mp hm
    refine ⟨m0, hm0, ?_⟩
    by_cases hc : c ∈ m0
    · rw [if_pos hc] at hsub
      exact hsub.trans (List.erase_sublist c m0)
    · rwa [if_neg hc] at hsub

theorem rationalise_step_nodup (c : Package) (dls : List (List Package))
    (h : ∀ l ∈ dls, l.Nodup) : ∀ l ∈ rationalise_step c dls, l.Nodup := by
  intro l hl
  obtain ⟨m, hm, rfl⟩ := List.mem_map.mp hl
  by_cases hc : c ∈ m
  · rw [if_pos hc]; exact (h m hm).erase c
  · rw [if_neg hc]; exact h m hm

theorem not_mem_rationalise_step (c : Package) (dls : List (List Package))
    (h : ∀ l ∈ dls, l.Nodup) : ∀ l ∈ rationalise_step c dls, c ∉ l := by
  intro l hl
  obtain ⟨m, hm, rfl⟩ := List.mem_map.mp hl
  by_cases hc : c ∈ m
  · rw [if_pos hc]
    intro hmem
    exact absurd ((List.Nodup.mem_erase_iff (h m hm)).mp hmem).1 (by simp)
  · rw [if_neg hc]; exact hc

theorem rationalise_removes (conflicts : List Package) :
    ∀ (dls : List (List Package)), (∀ l ∈ dls, l.Nodup) →
      ∀ c ∈ conflicts, ∀ l ∈ rationalise conflicts dls, c ∉ l := by
  induction conflicts with
  | nil => intro dls _ c hc; exact absurd hc (List.not_mem_nil c)
  | cons c0 cs ih =>
    intro dls hnd c hc l hl
    rw [rationalise_cons] at hl
    rcases List.mem_cons.mp hc with rfl | hcs
    · obtain ⟨m, hm, hsub⟩ := mem_rationalise_sublist cs _ l hl
      intro hmem
      exact not_mem_rationalise_step c dls hnd m hm (hsub.subset hmem)
    · exact ih (rationalise_step c0 dls) (rationalise_step_nodup c0 dls hnd)
        c hcs l hl

/-- Claim C2 counterexample: the package `c2P` depends on the disjunction
`[A, A=1]` (resolving to `[A=1, A=1]`) and conflicts with `A`;
`list.remove` deletes only the first occurrence, so after resolution the
disjunction `[A=1]` survives while `A=1` is also in the conflict set —
the invariant fails on this repository input. -/
theorem C2_counterexample :
    [pkgA1] ∈ (find_constraint_options c2repo c2P).1 ∧
    pkgA1 ∈ ([pkgA1] : List Package) ∧
    pkgA1 ∈ (find_constraint_options c2repo c2P).2 := by
  refine ⟨by decide, by decide, by decide⟩

/-- Claim C2 (amended): provided each resolved dependency disjunction is
duplicate-free, after resolution no element of any dependency disjunction
is an element of the conflict set; the proviso is necessary because
rationalisation removes only the first occurrence of a conflicting
version. -/
theorem C2_nodup_rationalise (repo : Repo) (p : Package)
    (h : ∀ l ∈ pre_dependencies repo p, l.Nodup) :
    ∀ l ∈ (find_constraint_options repo p).1,
      ∀ c ∈ (find_constraint_options repo p).2, c ∉ l := by
  intro l hl c hc
  exact rationalise_removes (resolve_flat repo p.conflict_constraints)
    (pre_dependencies repo p) h c hc l hl

/-- Witness for `C2_nodup_rationalise`: on the duplicate-free instance
`c2repo2`, the conflict `B=1` was removed from the resolved disjunction
`[A=1]` of `c2Q`. -/
theorem C2_nodup_rationalise_witness : pkgB1 ∉ ([pkgA1] : List Package) :=
  C2_nodup_rationalise c2repo2 c2Q (by decide) [pkgA1] (by decide)
    pkgB1 (by decide)

/-- Claim C3 counterexample: the package `c3P` depends on `[A]` and
conflicts with `A`; rationalisation empties the kept disjunction, the
empty disjunction is not dropped, and the encoder emits the dependency
clause consisting of the single literal `¬x_2` for `c3P`. -/
theorem C3_counterexample :
    [] ∈ (find_constraint_options c3repo c3P).1 ∧
    Line.clause none [-(2 : Int)] ∈ problem_to_cnf 2 c3repo [] [] := by
  refine ⟨by decide, by decide⟩

/-- Claim C3 (amended): a disjunction that resolves to empty against the
repository is dropped before rationalisation; but a disjunction emptied
by rationalisation itself is retained, and for every retained disjunction
— the empty one included — the encoder emits the corresponding dependency
clause, which for an empty disjunction is the single literal `¬x_P`. -/
theorem C3_empty_disjunction :
    (∀ (repo : Repo) (p : Package), [] ∉ pre_dependencies repo p) ∧
    (∀ (sat_count : Nat) (repo : Repo) (uninstall : List Package)
       (install : List Constraint) (p : Package),
       p ∈ repo_packages repo →
       [] ∈ (find_constraint_options repo p).1 →
       Line.clause none [-(p.sat_number : Int)] ∈
         problem_to_cnf sat_count repo uninstall install) := by
  constructor
  · intro repo p h
    have := (List.mem_filter.mp h).2
    simp at this
  · intro sat_count repo uninstall install p hp hdl
    unfold problem_to_cnf cnf_body
    refine List.mem_cons_of_mem _ (List.mem_cons_of_mem _ ?_)
    refine List.mem_append_left _ (List.mem_append_left _ ?_)
    refine List.mem_flatMap.mpr ⟨p, hp, ?_⟩
    unfold package_clauses
    refine List.mem_append_right _ ?_
    have := List.mem_map_of_mem
      (fun dl : List Package => Line.clause none
        ((-(p.sat_number : Int)) :: dl.map (fun q => (q.sat_number : Int))))
      hdl
    simpa using this

/-- Witness for `C3_empty_disjunction` at the conflicting-dependency
instance. -/
theorem C3_empty_disjunction_witness :
    ([] ∉ pre_dependencies c3repo c3P) ∧
    Line.clause none [-(c3P.sat_number : Int)] ∈
      problem_to_cnf 2 c3repo [] [] :=
  ⟨C3_empty_disjunction.1 c3repo c3P,
   C3_empty_disjunction.2 2 c3repo [] [] c3P (by decide) (by decide)⟩

/-- Claim C6 counterexample: on the cycle instance (`A ↔ B` to install,
`C` already installed and also selected by the solver), the toposort
fails and the appended blocking clause is `[-1, -2, -3]` — it negates the
variable of `C` as well, although `C` is in the initial state and so not
in the to-install set `A = {A, B}`. -/
theorem C6_counterexample :
    solve_wcnf_step c6repo c6all c6wcnf [c6C] [] [c6A, c6B, c6C] =
      StepResult.retry
        (c6wcnf ++ [Line.clause (some MAX_WEIGHT) [-1, -2, -3]]) ∧
    [c6A, c6B, c6C].filter (fun p => !([c6C] : List Package).contains p)
      = [c6A, c6B] ∧
    (-3 : Int) ∉ [c6A, c6B].map (fun p => -(p.sat_number : Int)) := by
  refine ⟨by decide, by decide, by decide⟩

/-- Claim C6 (amended): whenever install-side topological sorting detects
a cycle, the clause appended to the WCNF before re-invoking the solver
has weight `MAX_WEIGHT` and contains exactly the negated variables of
every package the solver assigned true (`add_p`) — including packages
already in the initial state — and no other literals. -/
theorem C6_blocking_clause (repo : Repo) (all_pkgs : List Package)
    (wcnf : List Line) (initial remove_p add_p : List Package)
    (w : List Line)
    (h : solve_wcnf_step repo all_pkgs wcnf initial remove_p add_p =
      StepResult.retry w) :
    w = wcnf ++ [Line.clause (some MAX_WEIGHT)
      (add_p.map (fun p => -(p.sat_number : Int)))] := by
  unfold solve_wcnf_step at h
  split at h
  · exact absurd h (by simp)
  · split at h
    · exact absurd h (by simp)
    · exact (StepResult.retry.inj h).symm
    · exact absurd h (by simp)

/-- Witness for `C6_blocking_clause` at the cycle instance. -/
theorem C6_blocking_clause_witness :
    c6wcnf ++ [Line.clause (some MAX_WEIGHT) [-1, -2, -3]] =
    c6wcnf ++ [Line.clause (some MAX_WEIGHT)
      ([c6A, c6B, c6C].map (fun p => -(p.sat_number : Int)))] :=
  C6_blocking_clause c6repo c6all c6wcnf [c6C] [] [c6A, c6B, c6C]
    (c6wcnf ++ [Line.clause (some MAX_WEIGHT) [-1, -2, -3]]) (by decide)

theorem cnf_body_shape (repo : Repo) (uninstall : List Package)
    (install : List Constraint) :
    ∀ l ∈ cnf_body repo uninstall install,
      ∃ lits, l = Line.clause none lits := by
  intro l hl
  unfold cnf_body at hl
  rcases List.mem_append.mp hl with h | h
  · rcases List.mem_append.mp h with h2 | h2
    · obtain ⟨p, hp, hpc⟩ := List.mem_flatMap.mp h2
      unfold package_clauses at hpc
      rcases List.mem_append.mp hpc with h3 | h3
      · obtain ⟨c, hc, rfl⟩ := List.mem_map.mp h3
        exact ⟨_, rfl⟩
      · obtain ⟨dl, hdl, rfl⟩ := List.mem_map.mp h3
        exact ⟨_, rfl⟩
    · obtain ⟨p, hp, rfl⟩ := List.mem_map.mp h2
      exact ⟨_, rfl⟩
  · obtain ⟨c, hc, rfl⟩ := List.mem_map.mp h
    exact ⟨_, rfl⟩

theorem wcnf_body_clause (repo : Repo) (initial uninstall : List Package)
    (install : List Constraint) :
    ∀ l ∈ wcnf_body repo initial uninstall install,
      is_clause_line l = true := by
  intro l hl
  unfold wcnf_body at hl
  rcases List.mem_append.mp hl with h | h
  · obtain ⟨m, hm, rfl⟩ := List.mem_map.mp h
    obtain ⟨lits, rfl⟩ := cnf_body_shape repo uninstall install m hm
    rfl
  · unfold soft_lines at h
    rcases List.mem_append.mp h with h2 | h2
    · obtain ⟨p, hp, rfl⟩ := List.mem_map.mp h2
      rfl
    · obtain ⟨p, hp, rfl⟩ := List.mem_map.mp h2
      rfl

theorem clause_count_all (ls : List Line)
    (h : ∀ l ∈ ls, is_clause_line l = true) :
    clause_line_count ls = ls.length := by
  unfold clause_line_count
  rw [List.filter_eq_self.mpr h]

/-- Claim C7 (code bug): the first WCNF document satisfies the header
contract — `C` equals the number of clause lines present (and `V`, `W`
come out as `sat_count` and `MAX_WEIGHT` by construction) — but a
document extended with a cycle-recovery blocking clause does not: the
header still carries the old count, one less than the clause lines
actually present (the source's `todo: update problem line` comment). -/
theorem C7_header_count (sat_count : Nat) (repo : Repo)
    (initial uninstall : List Package) (install : List Constraint)
    (w : Nat) (lits : List Int) :
    header_clause_count
        (problem_to_wcnf sat_count repo initial uninstall install) =
      some (clause_line_count
        (problem_to_wcnf sat_count repo initial uninstall install)) ∧
    header_clause_count
        (problem_to_wcnf sat_count repo initial uninstall install ++
          [Line.clause (some w) lits]) ≠
      some (clause_line_count
        (problem_to_wcnf sat_count repo initial uninstall install ++
          [Line.clause (some w) lits])) := by
  have hc : clause_line_count (wcnf_body repo initial uninstall install) =
      (wcnf_body repo initial uninstall install).length :=
    clause_count_all _ (wcnf_body_clause repo initial uninstall install)
  constructor
  · have h1 : header_clause_count
        (problem_to_wcnf sat_count repo initial uninstall install) =
        some ((wcnf_body repo initial uninstall install).length) := rfl
    have h2 : clause_line_count
        (problem_to_wcnf sat_count repo initial uninstall install) =
        clause_line_count (wcnf_body repo initial uninstall install) := rfl
    rw [h1, h2, hc]
  · have h1 : header_clause_count
        (problem_to_wcnf sat_count repo initial uninstall install ++
          [Line.clause (some w) lits]) =
        some ((wcnf_body repo initial uninstall install).length) := rfl
    have h2 : clause_line_count
        (problem_to_wcnf sat_count repo initial uninstall install ++
          [Line.clause (some w) lits]) =
        clause_line_count (wcnf_body repo initial uninstall install ++
          [Line.clause (some w) lits]) := rfl
    have h3 : clause_line_count (wcnf_body repo initial uninstall install ++
        [Line.clause (some w) lits]) =
        clause_line_count (wcnf_body repo initial uninstall install) + 1 := by
      unfold clause_line_count
      rw [List.filter_append]
      simp [is_clause_line]
    rw [h1, h2, h3, hc]
    intro hcontra
    have := Option.some.inj hcontra
    omega

/-- Claim C10 (confirmed): once `len(SAT_NUMBER)` reaches 50000, `main`
takes the plain CNF path, and the plain CNF encoding contains no weighted
clause at all — in particular no size-cost and no keep-installed soft
clause — so the solver merely satisfies the hard constraints instead of
minimising cost. -/
theorem C10_large_repo_plain_cnf :
    (∀ sat_list_len : Nat, 50000 ≤ sat_list_len →
      main_solver_choice sat_list_len = SolverChoice.cnf) ∧
    (∀ (sat_count : Nat) (repo : Repo) (uninstall : List Package)
       (install : List Constraint) (w : Nat) (lits : List Int),
      Line.clause (some w) lits ∉
        problem_to_cnf sat_count repo uninstall install) := by
  constructor
  · intro n hn
    unfold main_solver_choice
    rw [if_neg (by omega)]
  · intro sat_count repo uninstall install w lits hmem
    unfold problem_to_cnf at hmem
    rcases List.mem_cons.mp hmem with h | hmem
    · exact absurd h (by simp)
    rcases List.mem_cons.mp hmem with h | hmem
    · exact absurd h (by simp)
    obtain ⟨lits2, heq⟩ := cnf_body_shape repo uninstall install _ hmem
    exact absurd heq (by simp)

/-- Witness for `C10_large_repo_plain_cnf` at the boundary length. -/
theorem C10_large_repo_plain_cnf_witness :
    main_solver_choice 50000 = SolverChoice.cnf ∧
    Line.clause (some 3) [1] ∉ problem_to_cnf 1 [] [] [] :=
  ⟨C10_large_repo_plain_cnf.1 50000 (by decide),
   C10_large_repo_plain_cnf.2 1 [] [] [] 3 [1]⟩

end DepSolver
